import Mathlib

/-!
Verification of the pdp-server piece lifecycle state machine and
transaction reconciliation engine.

The Go sources are shallowly embedded:
* `PieceInfo` mirrors `pkg/piece/service.go` (`PieceInfo` struct); the
  in-memory piece table `map[string]*PieceInfo` is an association list
  with map semantics (`lookupPiece` / `insertPiece`, insertion replaces).
* External, fallible collaborators (file system, CommP hasher, CID
  encoder, blob store, Piri ledger service, GORM databases) are passed in
  as oracle values: each call site's outcome is a parameter, so theorems
  quantify over every possible collaborator behaviour.
* Byte slices are `List Nat`; `int64` is `Int`; `*bool` is `Option Bool`;
  `time.Time` timestamps are abstract `Nat` ticks.
* Go map iteration over database rows is a `List` of records; a GORM
  `First(...Where hash)` query is `List.find?` (the `ErrRecordNotFound`
  branch is `none`; other infrastructure errors leave state unchanged in
  the source exactly as `none` does for the properties proved here).
-/

namespace PdpServer

/-- Embeds the `PieceInfo` struct of `pkg/piece/service.go`. -/
structure PieceInfo where
  id : String
  filePath : String
  size : Int
  commP : String
  pieceCID : String
  dataCID : String
  proofSetID : Int
  status : String
  errorMessage : String
  uploadURL : String
  transactionHash : String
  transactionTimestamp : Nat
deriving Repr, DecidableEq

/-- Embeds the `MessageWaitsEth` GORM model (transaction ledger record). -/
structure MessageWaitsEth where
  signedTxHash : String
  confirmedTxHash : String
  txStatus : String
  txSuccess : Option Bool
  confirmedBlockNumber : Option Int
  confirmedTxData : List Nat
  txReceipt : List Nat
deriving Repr, DecidableEq

/-- The in-memory piece table `map[string]*PieceInfo` of `PieceService`. -/
abbrev PieceMap := List (String × PieceInfo)

/-- Go map read `p.pieces[pieceID]`. -/
def lookupPiece (m : PieceMap) (k : String) : Option PieceInfo :=
  (m.find? (fun e => e.1 = k)).map (fun e => e.2)

/-- Go map write `p.pieces[pieceID] = piece` (replaces an existing binding). -/
def insertPiece : PieceMap → String → PieceInfo → PieceMap
  | [], k, v => [(k, v)]
  | e :: rest, k, v => if e.1 = k then (k, v) :: rest else e :: insertPiece rest k v

/-! ### Commitment padding (`padToPowerOfTwo`, `pkg/piece/service.go`)

The Go loop `nextPowerOfTwo := 1; for nextPowerOfTwo < size { nextPowerOfTwo <<= 1 }`
keeps its accumulator equal to `2^j`; `nextPow2From j size` is that loop
with the accumulator written in exponent form (entry point `j = 0`,
accumulator `2^0 = 1`). -/

def nextPow2From (j size : Nat) : Nat :=
  if h : 2 ^ j < size then nextPow2From (j + 1) size else 2 ^ j
termination_by size - 2 ^ j
decreasing_by
  exact Nat.sub_lt_sub_left h (Nat.pow_lt_pow_right (by omega) (by omega))

/-- The `nextPowerOfTwo` computation of `padToPowerOfTwo`. -/
def nextPow2 (size : Nat) : Nat := nextPow2From 0 size

/-- Embeds `padToPowerOfTwo` of `pkg/piece/service.go`: zero-length data is
returned as is; data whose length is reached exactly by the doubling loop is
returned unchanged; otherwise `make([]byte, n)` + `copy` yields the data
followed by zero bytes. -/
def padToPowerOfTwo (data : List Nat) : List Nat :=
  if data.length = 0 then data
  else
    if nextPow2 data.length = data.length then data
    else data ++ List.replicate (nextPow2 data.length - data.length) 0

/-- The doubling loop computes the least `2^k` that is at least `size`,
starting from exponent `j`: the result bounds `size`, is a power of two with
exponent at least `j`, and is below every `2^m` with `m ≥ j`, `2^m ≥ size`. -/
theorem nextPow2From_spec (fuel : Nat) : ∀ j size : Nat, size - 2 ^ j ≤ fuel →
    size ≤ nextPow2From j size ∧
    (∃ k, j ≤ k ∧ nextPow2From j size = 2 ^ k) ∧
    (∀ m, j ≤ m → size ≤ 2 ^ m → nextPow2From j size ≤ 2 ^ m) := by
  induction fuel with
  | zero =>
    intro j size hf
    have hle : size ≤ 2 ^ j := by omega
    have hstop : ¬ 2 ^ j < size := by omega
    rw [nextPow2From, dif_neg hstop]
    refine ⟨hle, ⟨j, le_refl j, rfl⟩, ?_⟩
    intro m hm _
    exact Nat.pow_le_pow_right (by omega) hm
  | succ n ih =>
    intro j size hf
    by_cases h : 2 ^ j < size
    · rw [nextPow2From, dif_pos h]
      have hlt : 2 ^ j < 2 ^ (j + 1) := Nat.pow_lt_pow_right (by omega) (by omega)
      have hf' : size - 2 ^ (j + 1) ≤ n := by omega
      obtain ⟨h1, ⟨k, hk1, hk2⟩, h3⟩ := ih (j + 1) size hf'
      refine ⟨h1, ⟨k, by omega, hk2⟩, ?_⟩
      intro m hm hsm
      have hjm : j < m := by
        by_contra hc
        have : m = j := by omega
        subst this
        omega
      exact h3 m (by omega) hsm
    · rw [nextPow2From, dif_neg h]
      refine ⟨by omega, ⟨j, le_refl j, rfl⟩, ?_⟩
      intro m hm _
      exact Nat.pow_le_pow_right (by omega) hm

/-- `nextPow2 size` is at least `size`, is a power of two, and is the least
power of two that is at least `size`. -/
theorem nextPow2_spec (size : Nat) :
    size ≤ nextPow2 size ∧ (∃ k, nextPow2 size = 2 ^ k) ∧
    (∀ m, size ≤ 2 ^ m → nextPow2 size ≤ 2 ^ m) := by
  obtain ⟨h1, ⟨k, _, hk⟩, h3⟩ := nextPow2From_spec (size - 2 ^ 0) 0 size (le_refl _)
  exact ⟨h1, ⟨k, hk⟩, fun m hm => h3 m (Nat.zero_le m) hm⟩

/-- If `size` itself is a power of two then the doubling loop stops exactly
at `size`. -/
theorem nextPow2_eq_self (size : Nat) (h : ∃ k, size = 2 ^ k) :
    nextPow2 size = size := by
  obtain ⟨k, hk⟩ := h
  obtain ⟨h1, _, h3⟩ := nextPow2_spec size
  have := h3 k (le_of_eq hk)
  omega

/-! ### Piece lifecycle operations (`pkg/piece/service.go`)

Each operation returns the Go function's result together with the updated
piece table. Outcomes of external collaborator calls are oracle
parameters. -/

/-- Oracle outcomes for `PreparePiece`: `openStat` collapses the
`os.Open` / `Stat` / hashing error paths (all return before any map
write) or yields the file size; `pieceID` is the hex encoding of the
first 8 bytes of the file content's SHA-256 hash (opaque here). -/
structure PrepareOracles where
  openStat : Except String Int
  pieceID : String

/-- Embeds `PreparePiece`: on success stores a fresh record with
`Status = "prepared"` under the hash-derived id (a plain Go map write,
which replaces any existing record with that id). -/
def PreparePiece (pieces : PieceMap) (filePath : String) (o : PrepareOracles) :
    Except String PieceInfo × PieceMap :=
  match o.openStat with
  | .error e => (.error e, pieces)
  | .ok fileSize =>
    let pieceInfo : PieceInfo :=
      { id := o.pieceID, filePath := filePath, size := fileSize, commP := "",
        pieceCID := "", dataCID := "", proofSetID := 0, status := "prepared",
        errorMessage := "", uploadURL := "", transactionHash := "",
        transactionTimestamp := 0 }
    (.ok pieceInfo, insertPiece pieces o.pieceID pieceInfo)

/-- Oracle outcomes for `UploadPiece`: `commpDigest` is the CommP
digest of the padded content, represented by its hex encoding (the only
form the code stores), or the error of `io.Copy` / `cp.Digest`;
`toCID` is `commcid.DataCommitmentV1ToCID` rendered as a string;
`blobPut` is the blob-store write outcome. -/
structure UploadOracles where
  commpDigest : Except String String
  toCID : Except String String
  blobPut : Except String Unit

/-- The record `UploadPiece` builds before storing: padded size, CommP,
piece CID also used as data CID, `Status = "uploaded"`. -/
def uploadedRecord (pieceID : String) (fileContent : List Nat)
    (digest pieceCID : String) : PieceInfo :=
  { id := pieceID, filePath := "", size := ((padToPowerOfTwo fileContent).length : Int),
    commP := digest, pieceCID := pieceCID, dataCID := pieceCID, proofSetID := 0,
    status := "uploaded", errorMessage := "", uploadURL := "",
    transactionHash := "", transactionTimestamp := 0 }

/-- Embeds `UploadPiece`: rejects an id already present in the table,
pads the content, computes CommP and the piece CID, writes the blob, and
only then stores the record with `Status = "uploaded"`. -/
def UploadPiece (pieces : PieceMap) (pieceID : String) (fileContent : List Nat)
    (o : UploadOracles) : Except String PieceInfo × PieceMap :=
  if (lookupPiece pieces pieceID).isSome then
    (.error ("piece " ++ pieceID ++ " already exists"), pieces)
  else
    match o.commpDigest with
    | .error e => (.error ("failed to calculate commp: " ++ e), pieces)
    | .ok digest =>
      match o.toCID with
      | .error e => (.error ("failed to convert commp to piece CID: " ++ e), pieces)
      | .ok pieceCID =>
        let piece : PieceInfo := uploadedRecord pieceID fileContent digest pieceCID
        match o.blobPut with
        | .error e => (.error ("failed to store piece in blob store: " ++ e), pieces)
        | .ok _ => (.ok piece, insertPiece pieces pieceID piece)

/-- Oracle outcomes for `AddPieceToProofSet`: `cidDecode` is
`cid.Decode(piece.PieceCID)`, `genUnsealed` is
`nonffi.GenerateUnsealedCID`, `dbEntries` is the
`createPiriDatabaseEntries` transaction, `addRoot` is
`piriService.ProofSetAddRoot` (on success carrying the transaction hash
when the untyped result is a string, `none` otherwise), and `now` is the
`time.Now()` tick. -/
structure AddOracles where
  cidDecode : Except String Unit
  genUnsealed : Except String Unit
  dbEntries : Except String Unit
  addRoot : Except String (Option String)
  now : Nat

/-- The piece record after `ProofSetAddRoot` rejects the submission:
`Status = "error"` with the wrapped ledger failure message. -/
def rejectedRecord (piece : PieceInfo) (e : String) : PieceInfo :=
  { piece with status := "error",
               errorMessage := "failed to add root to proof set: " ++ e }

/-- The piece record after a successful submission: the transaction hash
when the untyped ledger result is a string, the proof-set id,
`Status = "pending_confirmation"`, and the submission timestamp. -/
def submittedRecord (piece : PieceInfo) (proofSetID : Int)
    (txHash : Option String) (now : Nat) : PieceInfo :=
  let withHash :=
    match txHash with
    | some h => { piece with transactionHash := h }
    | none => piece
  { withHash with proofSetID := proofSetID, status := "pending_confirmation",
                  transactionTimestamp := now }

/-- Embeds `AddPieceToProofSet`: requires an existing piece with
`Status = "uploaded"`; a ledger-submission error sets
`Status = "error"` with a message; success records the transaction hash,
the proof-set id, `Status = "pending_confirmation"` and the timestamp. -/
def AddPieceToProofSet (pieces : PieceMap) (pieceID : String) (proofSetID : Int)
    (o : AddOracles) : Except String Unit × PieceMap :=
  match lookupPiece pieces pieceID with
  | none => (.error ("piece not found: " ++ pieceID), pieces)
  | some piece =>
    if piece.status ≠ "uploaded" then
      (.error ("piece " ++ pieceID ++ " is not uploaded"), pieces)
    else
      match o.cidDecode with
      | .error e => (.error ("invalid piece CID: " ++ e), pieces)
      | .ok _ =>
        match o.genUnsealed with
        | .error e => (.error ("failed to generate unsealed CID: " ++ e), pieces)
        | .ok _ =>
          match o.dbEntries with
          | .error e => (.error ("failed to create Piri database entries: " ++ e), pieces)
          | .ok _ =>
            match o.addRoot with
            | .error e =>
              (.error e, insertPiece pieces pieceID (rejectedRecord piece e))
            | .ok txHash =>
              (.ok (), insertPiece pieces pieceID
                (submittedRecord piece proofSetID txHash o.now))

/-- The piece record after a successfully confirmed transaction. -/
def confirmedRecord (piece : PieceInfo) : PieceInfo :=
  { piece with status := "added_to_proofset" }

/-- The piece record after a confirmed but unsuccessful transaction. -/
def failedRecord (piece : PieceInfo) : PieceInfo :=
  { piece with status := "transaction_failed",
               errorMessage := "Transaction failed on blockchain" }

/-- Embeds `MonitorTransactionStatus`: for a piece in
`pending_confirmation` with a transaction hash, looks the hash up in the
transaction database (`db`, rows of `message_waits_eth`); a missing row
means still pending (no change); a `confirmed` row advances the piece to
`added_to_proofset` when `TxSuccess` is a true pointer and otherwise to
`transaction_failed` with an error message; any other row status is
logged and changes nothing. -/
def MonitorTransactionStatus (pieces : PieceMap) (db : List MessageWaitsEth)
    (pieceID : String) : Except String Unit × PieceMap :=
  match lookupPiece pieces pieceID with
  | none => (.error ("piece not found: " ++ pieceID), pieces)
  | some piece =>
    if piece.status ≠ "pending_confirmation" then
      (.error ("piece " ++ pieceID ++ " is not in pending confirmation status"), pieces)
    else if piece.transactionHash = "" then
      (.error ("no transaction hash found for piece " ++ pieceID), pieces)
    else
      match db.find? (fun mw => mw.signedTxHash = piece.transactionHash) with
      | none => (.ok (), pieces)
      | some messageWait =>
        if messageWait.txStatus = "confirmed" then
          if messageWait.txSuccess = some true then
            (.ok (), insertPiece pieces pieceID (confirmedRecord piece))
          else
            (.ok (), insertPiece pieces pieceID (failedRecord piece))
        else
          (.ok (), pieces)

/-! ### Background transaction watcher (`pkg/watcher`, source file
`watcher.go`)

The watcher owns its local `message_waits_eth` table and reads Piri's;
it holds no reference to the `PieceService` table, so its effect on
pieces is captured by carrying the piece table through the tick
unchanged wherever the source makes no piece access. -/

/-- Combined state a reconciliation tick can read or write: the piece
table and the watcher's local transaction table. -/
structure WatcherState where
  pieces : PieceMap
  localTxs : List MessageWaitsEth
deriving Repr, DecidableEq

/-- GORM `Model(tx).Updates(...)`: replace the row with the matching
signed hash. -/
def updateTxRow (rows : List MessageWaitsEth) (hash : String)
    (updated : MessageWaitsEth) : List MessageWaitsEth :=
  rows.map (fun r => if r.signedTxHash = hash then updated else r)

/-- Embeds `updatePieceStatusForConfirmedTx`: the source body only logs
and returns nil — it performs no piece lookup or update, so the piece
table passes through unchanged. -/
def updatePieceStatusForConfirmedTx (pieces : PieceMap) (_txHash : String) :
    PieceMap :=
  pieces

/-- Embeds `handleConfirmedTransaction`: only when the receipt is
non-empty does it call `updatePieceStatusForConfirmedTx`. -/
def handleConfirmedTransaction (pieces : PieceMap) (piriTx : MessageWaitsEth)
    (txHash : String) : PieceMap :=
  if 0 < piriTx.txReceipt.length then
    updatePieceStatusForConfirmedTx pieces txHash
  else pieces

/-- Embeds `checkTransactionStatus`: reads Piri's row for the hash; when
the status changed, copies the ledger fields onto the local transaction
row and, for a successfully confirmed transaction, runs the
confirmed-transaction handler. -/
def checkTransactionStatus (st : WatcherState) (piriTxs : List MessageWaitsEth)
    (tx : MessageWaitsEth) : WatcherState :=
  match piriTxs.find? (fun m => m.signedTxHash = tx.signedTxHash) with
  | none => st
  | some piriTx =>
    if piriTx.txStatus ≠ tx.txStatus then
      let updated :=
        { tx with txStatus := piriTx.txStatus,
                  txSuccess := piriTx.txSuccess,
                  confirmedTxHash := piriTx.confirmedTxHash,
                  confirmedBlockNumber := piriTx.confirmedBlockNumber,
                  confirmedTxData := piriTx.confirmedTxData,
                  txReceipt := piriTx.txReceipt }
      let localTxs' := updateTxRow st.localTxs tx.signedTxHash updated
      let pieces' :=
        if piriTx.txStatus = "confirmed" ∧ piriTx.txSuccess = some true then
          handleConfirmedTransaction st.pieces piriTx tx.signedTxHash
        else st.pieces
      { pieces := pieces', localTxs := localTxs' }
    else st

/-- Embeds `processPendingTransactions` (one background tick): selects
the local rows with `tx_status = "pending"` and checks each in turn
(per-row errors are logged and skipped in the source, which never aborts
the batch). -/
def processPendingTransactions (st : WatcherState)
    (piriTxs : List MessageWaitsEth) : WatcherState :=
  (st.localTxs.filter (fun t => t.txStatus = "pending")).foldl
    (fun s tx => checkTransactionStatus s piriTxs tx) st

/-! ### Piece-table lemmas -/

/-- Reading back the key just written returns the written record. -/
theorem lookupPiece_insertPiece_self (m : PieceMap) (k : String) (v : PieceInfo) :
    lookupPiece (insertPiece m k v) k = some v := by
  induction m with
  | nil => simp [insertPiece, lookupPiece, List.find?]
  | cons e rest ih =>
    by_cases h : e.1 = k
    · simp [insertPiece, h, lookupPiece, List.find?]
    · simpa [insertPiece, h, lookupPiece, List.find?] using ih

/-- Writing one key leaves every other key's record unchanged. -/
theorem lookupPiece_insertPiece_ne (m : PieceMap) (k k' : String) (v : PieceInfo)
    (h : k' ≠ k) : lookupPiece (insertPiece m k v) k' = lookupPiece m k' := by
  have hkk : k ≠ k' := Ne.symm h
  induction m with
  | nil => simp [insertPiece, lookupPiece, List.find?, hkk]
  | cons e rest ih =>
    by_cases he : e.1 = k
    · simp [insertPiece, he, lookupPiece, List.find?, hkk]
    · by_cases he' : e.1 = k'
      · simp [insertPiece, he, lookupPiece, List.find?, he', h]
      · simpa [insertPiece, he, lookupPiece, List.find?, he'] using ih

/-! ### The tick never touches the piece table -/

/-- One `checkTransactionStatus` call leaves the piece table unchanged:
its only piece access is the logging stub
`updatePieceStatusForConfirmedTx`. -/
theorem checkTransactionStatus_pieces (st : WatcherState)
    (piriTxs : List MessageWaitsEth) (tx : MessageWaitsEth) :
    (checkTransactionStatus st piriTxs tx).pieces = st.pieces := by
  unfold checkTransactionStatus
  cases piriTxs.find? (fun m => m.signedTxHash = tx.signedTxHash) with
  | none => rfl
  | some piriTx =>
    by_cases h : piriTx.txStatus ≠ tx.txStatus
    · by_cases hc : piriTx.txStatus = "confirmed" ∧ piriTx.txSuccess = some true
      · simp [h, hc, handleConfirmedTransaction, updatePieceStatusForConfirmedTx]
        split <;> rfl
      · simp [h, hc]
    · simp [h]

/-- A whole background tick leaves the piece table unchanged. -/
theorem processPendingTransactions_pieces (st : WatcherState)
    (piriTxs : List MessageWaitsEth) :
    (processPendingTransactions st piriTxs).pieces = st.pieces := by
  unfold processPendingTransactions
  generalize st.localTxs.filter (fun t => t.txStatus = "pending") = l
  induction l generalizing st with
  | nil => rfl
  | cons tx rest ih =>
    simp only [List.foldl_cons]
    rw [ih (checkTransactionStatus st piriTxs tx)]
    exact checkTransactionStatus_pieces st piriTxs tx

/-! ### The operation step system (for the status-progression claims) -/

/-- One piece-table operation of the service, with its oracle outcomes. -/
inductive PieceOp where
  | prepare (filePath : String) (o : PrepareOracles)
  | upload (pieceID : String) (fileContent : List Nat) (o : UploadOracles)
  | addToProofSet (pieceID : String) (proofSetID : Int) (o : AddOracles)
  | monitor (pieceID : String) (db : List MessageWaitsEth)

/-- The piece table after running one operation. -/
def applyOp (pieces : PieceMap) : PieceOp → PieceMap
  | .prepare fp o => (PreparePiece pieces fp o).2
  | .upload id c o => (UploadPiece pieces id c o).2
  | .addToProofSet id ps o => (AddPieceToProofSet pieces id ps o).2
  | .monitor id db => (MonitorTransactionStatus pieces db id).2

/-- The forward edges of the lifecycle state machine claimed by the spec
(section 4.2), reflexive on every state. -/
def statusEdgeB (s t : String) : Bool :=
  s = t ||
  (s = "prepared" && t = "uploaded") ||
  (s = "uploaded" && (t = "pending_confirmation" || t = "error")) ||
  (s = "pending_confirmation" &&
    (t = "added_to_proofset" || t = "transaction_failed" || t = "error"))

/-- Distinguishes the `PreparePiece` operation. -/
def PieceOp.isPrepare : PieceOp → Bool
  | .prepare _ _ => true
  | _ => false

/-- Whether an `Except` result is a success. -/
def exceptIsOk {ε α : Type} : Except ε α → Bool
  | .ok _ => true
  | .error _ => false

/-- `UploadPiece` either fails leaving the table unchanged, or the id was
absent and it stores exactly the freshly built uploaded record. -/
theorem UploadPiece_cases (pieces : PieceMap) (id : String) (c : List Nat)
    (o : UploadOracles) :
    (exceptIsOk (UploadPiece pieces id c o).1 = false ∧
     (UploadPiece pieces id c o).2 = pieces) ∨
    (lookupPiece pieces id = none ∧ ∃ d cid,
      UploadPiece pieces id c o =
        (.ok (uploadedRecord id c d cid),
         insertPiece pieces id (uploadedRecord id c d cid))) := by
  by_cases hl : (lookupPiece pieces id).isSome
  · left
    constructor <;> simp [UploadPiece, hl, exceptIsOk]
  · have hnone : lookupPiece pieces id = none := by
      cases hx : lookupPiece pieces id
      · rfl
      · rw [hx] at hl; simp at hl
    cases hcd : o.commpDigest with
    | error e =>
      left
      constructor <;> simp [UploadPiece, hl, hcd, exceptIsOk]
    | ok d =>
      cases hcid : o.toCID with
      | error e =>
        left
        constructor <;> simp [UploadPiece, hl, hcd, hcid, exceptIsOk]
      | ok cid =>
        cases hbp : o.blobPut with
        | error e =>
          left
          constructor <;> simp [UploadPiece, hl, hcd, hcid, hbp, exceptIsOk]
        | ok u =>
          right
          refine ⟨hnone, d, cid, ?_⟩
          simp [UploadPiece, hl, hcd, hcid, hbp]

/-- `AddPieceToProofSet` either leaves the table unchanged, or the piece
was `"uploaded"` and it stores the rejected record (ledger error) or the
submitted record (ledger success). -/
theorem AddPieceToProofSet_cases (pieces : PieceMap) (id : String)
    (ps : Int) (o : AddOracles) :
    (AddPieceToProofSet pieces id ps o).2 = pieces ∨
    (∃ piece, lookupPiece pieces id = some piece ∧ piece.status = "uploaded" ∧
      ((∃ e, o.addRoot = .error e ∧
         AddPieceToProofSet pieces id ps o =
           (.error e, insertPiece pieces id (rejectedRecord piece e))) ∨
       (∃ th, o.addRoot = .ok th ∧
         AddPieceToProofSet pieces id ps o =
           (.ok (), insertPiece pieces id (submittedRecord piece ps th o.now))))) := by
  cases hlk : lookupPiece pieces id with
  | none => left; simp [AddPieceToProofSet, hlk]
  | some piece =>
    by_cases hs : piece.status = "uploaded"
    · cases hcd : o.cidDecode with
      | error e => left; simp [AddPieceToProofSet, hlk, hs, hcd]
      | ok u1 =>
        cases hgen : o.genUnsealed with
        | error e => left; simp [AddPieceToProofSet, hlk, hs, hcd, hgen]
        | ok u2 =>
          cases hdb : o.dbEntries with
          | error e => left; simp [AddPieceToProofSet, hlk, hs, hcd, hgen, hdb]
          | ok u3 =>
            cases har : o.addRoot with
            | error e =>
              right
              exact ⟨piece, rfl, hs, Or.inl ⟨e, rfl,
                by simp [AddPieceToProofSet, hlk, hs, hcd, hgen, hdb, har]⟩⟩
            | ok th =>
              right
              exact ⟨piece, rfl, hs, Or.inr ⟨th, rfl,
                by simp [AddPieceToProofSet, hlk, hs, hcd, hgen, hdb, har]⟩⟩
    · left; simp [AddPieceToProofSet, hlk, hs]

/-- `MonitorTransactionStatus` either leaves the table unchanged, or the
piece was `"pending_confirmation"`, its transaction was found confirmed,
and it stores the terminal record matching the success flag. -/
theorem MonitorTransactionStatus_cases (pieces : PieceMap)
    (db : List MessageWaitsEth) (id : String) :
    (MonitorTransactionStatus pieces db id).2 = pieces ∨
    (∃ piece mw, lookupPiece pieces id = some piece ∧
      piece.status = "pending_confirmation" ∧
      db.find? (fun m => m.signedTxHash = piece.transactionHash) = some mw ∧
      mw.txStatus = "confirmed" ∧
      ((mw.txSuccess = some true ∧
         MonitorTransactionStatus pieces db id =
           (.ok (), insertPiece pieces id (confirmedRecord piece))) ∨
       (mw.txSuccess ≠ some true ∧
         MonitorTransactionStatus pieces db id =
           (.ok (), insertPiece pieces id (failedRecord piece))))) := by
  cases hlk : lookupPiece pieces id with
  | none => left; simp [MonitorTransactionStatus, hlk]
  | some piece =>
    by_cases hst : piece.status = "pending_confirmation"
    · by_cases hh : piece.transactionHash = ""
      · left; simp [MonitorTransactionStatus, hlk, hst, hh]
      · cases hfind : db.find? (fun m => m.signedTxHash = piece.transactionHash) with
        | none => left; simp [MonitorTransactionStatus, hlk, hst, hh, hfind]
        | some mw =>
          by_cases hcf : mw.txStatus = "confirmed"
          · by_cases hsc : mw.txSuccess = some true
            · right
              exact ⟨piece, mw, rfl, hst, hfind, hcf, Or.inl ⟨hsc,
                by simp [MonitorTransactionStatus, hlk, hst, hh, hfind, hcf, hsc]⟩⟩
            · right
              exact ⟨piece, mw, rfl, hst, hfind, hcf, Or.inr ⟨hsc,
                by simp [MonitorTransactionStatus, hlk, hst, hh, hfind, hcf, hsc]⟩⟩
          · left
            simp [MonitorTransactionStatus, hlk, hst, hh, hfind, hcf]
    · left; simp [MonitorTransactionStatus, hlk, hst]

/-- Every non-prepare operation either leaves the table unchanged or
writes one key whose record was previously absent (fresh upload) or
whose previous status steps forward along a lifecycle edge. -/
theorem applyOp_shape (pieces : PieceMap) (op : PieceOp)
    (h : op.isPrepare = false) :
    applyOp pieces op = pieces ∨
    ∃ k v, applyOp pieces op = insertPiece pieces k v ∧
      (lookupPiece pieces k = none ∨
       ∃ pold, lookupPiece pieces k = some pold ∧
         statusEdgeB pold.status v.status = true) := by
  cases op with
  | prepare fp o => simp [PieceOp.isPrepare] at h
  | upload id c o =>
    rcases UploadPiece_cases pieces id c o with ⟨_, h2⟩ | ⟨hnone, d, cid, heq⟩
    · left; simpa [applyOp] using h2
    · right
      refine ⟨id, uploadedRecord id c d cid, ?_, Or.inl hnone⟩
      simp [applyOp, heq]
  | addToProofSet id ps o =>
    rcases AddPieceToProofSet_cases pieces id ps o with h2 | ⟨piece, hlk, hs, hcase⟩
    · left; simpa [applyOp] using h2
    · right
      rcases hcase with ⟨e, _, heq⟩ | ⟨th, _, heq⟩
      · refine ⟨id, rejectedRecord piece e, by simp [applyOp, heq],
          Or.inr ⟨piece, hlk, ?_⟩⟩
        rw [show (rejectedRecord piece e).status = "error" from rfl, hs]
        decide
      · refine ⟨id, submittedRecord piece ps th o.now, by simp [applyOp, heq],
          Or.inr ⟨piece, hlk, ?_⟩⟩
        rw [show (submittedRecord piece ps th o.now).status =
              "pending_confirmation" from rfl, hs]
        decide
  | monitor id db =>
    rcases MonitorTransactionStatus_cases pieces db id
      with h2 | ⟨piece, mw, hlk, hst, _, _, hcase⟩
    · left; simpa [applyOp] using h2
    · right
      rcases hcase with ⟨_, heq⟩ | ⟨_, heq⟩
      · refine ⟨id, confirmedRecord piece,
          by simp [applyOp, heq], Or.inr ⟨piece, hlk, ?_⟩⟩
        rw [show (confirmedRecord piece).status = "added_to_proofset" from rfl, hst]
        decide
      · refine ⟨id, failedRecord piece,
          by simp [applyOp, heq], Or.inr ⟨piece, hlk, ?_⟩⟩
        rw [show (failedRecord piece).status = "transaction_failed" from rfl, hst]
        decide

/-! ### Concrete fixtures used by witnesses and counterexamples -/

/-- A piece awaiting transaction confirmation. -/
def samplePending : PieceInfo :=
  { id := "p1", filePath := "", size := 1, commP := "aa", pieceCID := "cid1",
    dataCID := "cid1", proofSetID := 7, status := "pending_confirmation",
    errorMessage := "", uploadURL := "", transactionHash := "0xabc",
    transactionTimestamp := 5 }

/-- A piece already in a terminal state. -/
def sampleTerminal : PieceInfo :=
  { samplePending with id := "p2", status := "added_to_proofset" }

/-- A freshly prepared piece. -/
def samplePrepared : PieceInfo :=
  { id := "p3", filePath := "file.bin", size := 3, commP := "", pieceCID := "",
    dataCID := "", proofSetID := 0, status := "prepared", errorMessage := "",
    uploadURL := "", transactionHash := "", transactionTimestamp := 0 }

/-- A ledger row reporting the sample transaction confirmed and successful. -/
def sampleConfirmedTx : MessageWaitsEth :=
  { signedTxHash := "0xabc", confirmedTxHash := "0xddd", txStatus := "confirmed",
    txSuccess := some true, confirmedBlockNumber := some 10,
    confirmedTxData := [], txReceipt := [1] }

/-- The same confirmation with a different block number and receipt. -/
def sampleConfirmedTxAlt : MessageWaitsEth :=
  { sampleConfirmedTx with confirmedBlockNumber := some 11, txReceipt := [2] }

/-- The watcher's local row for the sample transaction, still pending. -/
def samplePendingTx : MessageWaitsEth :=
  { signedTxHash := "0xabc", confirmedTxHash := "", txStatus := "pending",
    txSuccess := none, confirmedBlockNumber := none, confirmedTxData := [],
    txReceipt := [] }

/-! ### Claim theorems -/

/-- C7: for every non-empty byte sequence, `padToPowerOfTwo` returns a
sequence whose length is a power of two, which begins with the input and
continues with zero bytes only; an input of power-of-two length is
returned unchanged, any other input is padded to the least power of two
strictly greater than its length. -/
theorem padToPowerOfTwo_spec (data : List Nat) (h : 0 < data.length) :
    (∃ k, (padToPowerOfTwo data).length = 2 ^ k) ∧
    (padToPowerOfTwo data).take data.length = data ∧
    (padToPowerOfTwo data).drop data.length =
      List.replicate ((padToPowerOfTwo data).length - data.length) 0 ∧
    ((∃ k, data.length = 2 ^ k) → padToPowerOfTwo data = data) ∧
    (¬(∃ k, data.length = 2 ^ k) →
      data.length < (padToPowerOfTwo data).length ∧
      ∀ m, data.length < 2 ^ m → (padToPowerOfTwo data).length ≤ 2 ^ m) := by
  have h0 : ¬ data.length = 0 := by omega
  obtain ⟨hge, ⟨k, hk⟩, hmin⟩ := nextPow2_spec data.length
  by_cases heq : nextPow2 data.length = data.length
  · have hpad : padToPowerOfTwo data = data := by
      simp [padToPowerOfTwo, h0, heq]
    refine ⟨⟨k, by rw [hpad, ← heq, hk]⟩, ?_, ?_, fun _ => hpad, ?_⟩
    · rw [hpad, List.take_length]
    · rw [hpad]
      simp
    · intro hnp
      exact absurd ⟨k, by rw [← heq, hk]⟩ hnp
  · have hpad : padToPowerOfTwo data =
        data ++ List.replicate (nextPow2 data.length - data.length) 0 := by
      simp [padToPowerOfTwo, h0, heq]
    have hlen : (padToPowerOfTwo data).length = nextPow2 data.length := by
      rw [hpad]
      simp
      omega
    have hlt : data.length < nextPow2 data.length := by omega
    refine ⟨⟨k, by rw [hlen, hk]⟩, ?_, ?_, ?_, ?_⟩
    · rw [hpad, List.take_left]
    · rw [hpad, List.drop_left]
      congr 1
      simp only [List.length_append, List.length_replicate]
      omega
    · intro hp2
      exact absurd (nextPow2_eq_self data.length hp2) heq
    · intro _
      refine ⟨by omega, fun m hm => ?_⟩
      rw [hlen]
      exact hmin m (by omega)

/-- Witness for C7 at the concrete input `[1, 2, 3]` (length 3, padded
to length 4). -/
theorem padToPowerOfTwo_spec_witness :
    0 < ([1, 2, 3] : List Nat).length ∧
    ((∃ k, (padToPowerOfTwo [1, 2, 3]).length = 2 ^ k) ∧
     (padToPowerOfTwo [1, 2, 3]).take ([1, 2, 3] : List Nat).length = [1, 2, 3] ∧
     (padToPowerOfTwo [1, 2, 3]).drop ([1, 2, 3] : List Nat).length =
       List.replicate
         ((padToPowerOfTwo [1, 2, 3]).length - ([1, 2, 3] : List Nat).length) 0 ∧
     ((∃ k, ([1, 2, 3] : List Nat).length = 2 ^ k) →
       padToPowerOfTwo [1, 2, 3] = [1, 2, 3]) ∧
     (¬(∃ k, ([1, 2, 3] : List Nat).length = 2 ^ k) →
       ([1, 2, 3] : List Nat).length < (padToPowerOfTwo [1, 2, 3]).length ∧
       ∀ m, ([1, 2, 3] : List Nat).length < 2 ^ m →
         (padToPowerOfTwo [1, 2, 3]).length ≤ 2 ^ m)) :=
  ⟨by decide, padToPowerOfTwo_spec [1, 2, 3] (by decide)⟩

/-- C10: on the empty byte sequence `padToPowerOfTwo` is total and
returns the empty sequence unchanged, whose length 0 is not a power of
two. -/
theorem padToPowerOfTwo_empty :
    padToPowerOfTwo ([] : List Nat) = [] ∧
    ¬∃ k, (padToPowerOfTwo ([] : List Nat)).length = 2 ^ k := by
  refine ⟨rfl, ?_⟩
  rintro ⟨k, hk⟩
  have h0 : (padToPowerOfTwo ([] : List Nat)).length = 0 := rfl
  rw [h0] at hk
  have h2 : 0 < 2 ^ k := pow_pos (by omega) k
  omega

/-- C6: `AddPieceToProofSet` on an existing piece whose status is not
`"uploaded"` fails with the state error and returns the piece table
exactly as it was, so the piece record is completely unchanged. -/
theorem AddPieceToProofSet_stateError (pieces : PieceMap) (pieceID : String)
    (proofSetID : Int) (o : AddOracles) (piece : PieceInfo)
    (hp : lookupPiece pieces pieceID = some piece)
    (hs : piece.status ≠ "uploaded") :
    AddPieceToProofSet pieces pieceID proofSetID o =
      (.error ("piece " ++ pieceID ++ " is not uploaded"), pieces) := by
  simp [AddPieceToProofSet, hp, hs]

/-- Witness for C6 on a prepared (not uploaded) piece. -/
theorem AddPieceToProofSet_stateError_witness :
    (lookupPiece [("p3", samplePrepared)] "p3" = some samplePrepared ∧
     samplePrepared.status ≠ "uploaded") ∧
    AddPieceToProofSet [("p3", samplePrepared)] "p3" 7
        ⟨.ok (), .ok (), .ok (), .ok (some "0xabc"), 5⟩ =
      (.error ("piece " ++ "p3" ++ " is not uploaded"), [("p3", samplePrepared)]) :=
  ⟨⟨rfl, by decide⟩,
   AddPieceToProofSet_stateError [("p3", samplePrepared)] "p3" 7
     ⟨.ok (), .ok (), .ok (), .ok (some "0xabc"), 5⟩ samplePrepared rfl (by decide)⟩

/-- C9: whenever `UploadPiece` fails — id already present, commitment
computation failure, or blob-store write failure — the piece table is
returned unchanged, because the record is stored only after the
commitment and the blob write succeed. -/
theorem UploadPiece_error_leaves_table (pieces : PieceMap) (pieceID : String)
    (content : List Nat) (o : UploadOracles)
    (h : exceptIsOk (UploadPiece pieces pieceID content o).1 = false) :
    (UploadPiece pieces pieceID content o).2 = pieces := by
  rcases UploadPiece_cases pieces pieceID content o with ⟨_, h2⟩ | ⟨_, _, _, heq⟩
  · exact h2
  · rw [heq] at h
    simp [exceptIsOk] at h

/-- Witness for C9 with a failing commitment computation. -/
theorem UploadPiece_error_leaves_table_witness :
    exceptIsOk (UploadPiece [] "p1" [1] ⟨.error "boom", .ok "cid1", .ok ()⟩).1 = false ∧
    (UploadPiece [] "p1" [1] ⟨.error "boom", .ok "cid1", .ok ()⟩).2 = [] :=
  ⟨rfl, UploadPiece_error_leaves_table [] "p1" [1] ⟨.error "boom", .ok "cid1", .ok ()⟩ rfl⟩

/-- C4: reconciling a pending piece with a transaction reference
transitions it to `added_to_proofset` exactly when the ledger row is
confirmed with a true success pointer, to `transaction_failed` with a
non-empty error message exactly when confirmed otherwise, and changes
nothing when the ledger does not know the transaction or reports any
non-confirmed status (such as pending). -/
theorem MonitorTransactionStatus_reconciles (pieces : PieceMap)
    (db : List MessageWaitsEth) (pieceID : String) (piece : PieceInfo)
    (hp : lookupPiece pieces pieceID = some piece)
    (hst : piece.status = "pending_confirmation")
    (hh : piece.transactionHash ≠ "") :
    (db.find? (fun m => m.signedTxHash = piece.transactionHash) = none →
      MonitorTransactionStatus pieces db pieceID = (.ok (), pieces)) ∧
    (∀ mw, db.find? (fun m => m.signedTxHash = piece.transactionHash) = some mw →
      (mw.txStatus = "confirmed" → mw.txSuccess = some true →
        MonitorTransactionStatus pieces db pieceID =
          (.ok (), insertPiece pieces pieceID (confirmedRecord piece)) ∧
        (confirmedRecord piece).status = "added_to_proofset") ∧
      (mw.txStatus = "confirmed" → mw.txSuccess ≠ some true →
        MonitorTransactionStatus pieces db pieceID =
          (.ok (), insertPiece pieces pieceID (failedRecord piece)) ∧
        (failedRecord piece).status = "transaction_failed" ∧
        (failedRecord piece).errorMessage ≠ "") ∧
      (mw.txStatus ≠ "confirmed" →
        MonitorTransactionStatus pieces db pieceID = (.ok (), pieces))) := by
  constructor
  · intro hfind
    simp [MonitorTransactionStatus, hp, hst, hh, hfind]
  · intro mw hfind
    refine ⟨?_, ?_, ?_⟩
    · intro hcf hsc
      refine ⟨?_, rfl⟩
      simp [MonitorTransactionStatus, hp, hst, hh, hfind, hcf, hsc]
    · intro hcf hsc
      refine ⟨?_, rfl, ?_⟩
      · simp [MonitorTransactionStatus, hp, hst, hh, hfind, hcf, hsc]
      · rw [show (failedRecord piece).errorMessage =
            "Transaction failed on blockchain" from rfl]
        decide
    · intro hcf
      simp [MonitorTransactionStatus, hp, hst, hh, hfind, hcf]

/-- Witness for C4 on the sample pending piece and confirmed ledger row. -/
theorem MonitorTransactionStatus_reconciles_witness :
    (lookupPiece [("p1", samplePending)] "p1" = some samplePending ∧
     samplePending.status = "pending_confirmation" ∧
     samplePending.transactionHash ≠ "") ∧
    (([sampleConfirmedTx].find?
        (fun m => m.signedTxHash = samplePending.transactionHash) = none →
      MonitorTransactionStatus [("p1", samplePending)] [sampleConfirmedTx] "p1" =
        (.ok (), [("p1", samplePending)])) ∧
     (∀ mw, [sampleConfirmedTx].find?
         (fun m => m.signedTxHash = samplePending.transactionHash) = some mw →
       (mw.txStatus = "confirmed" → mw.txSuccess = some true →
         MonitorTransactionStatus [("p1", samplePending)] [sampleConfirmedTx] "p1" =
           (.ok (), insertPiece [("p1", samplePending)] "p1"
             (confirmedRecord samplePending)) ∧
         (confirmedRecord samplePending).status = "added_to_proofset") ∧
       (mw.txStatus = "confirmed" → mw.txSuccess ≠ some true →
         MonitorTransactionStatus [("p1", samplePending)] [sampleConfirmedTx] "p1" =
           (.ok (), insertPiece [("p1", samplePending)] "p1"
             (failedRecord samplePending)) ∧
         (failedRecord samplePending).status = "transaction_failed" ∧
         (failedRecord samplePending).errorMessage ≠ "") ∧
       (mw.txStatus ≠ "confirmed" →
         MonitorTransactionStatus [("p1", samplePending)] [sampleConfirmedTx] "p1" =
           (.ok (), [("p1", samplePending)])))) :=
  ⟨⟨rfl, rfl, by decide⟩,
   MonitorTransactionStatus_reconciles [("p1", samplePending)] [sampleConfirmedTx]
     "p1" samplePending rfl rfl (by decide)⟩

/-- C5 counterexample: two confirmed ledger rows that differ in confirmed
block and receipt produce the identical piece table, so the reconciler
cannot be copying those ledger fields onto the piece record. -/
theorem monitor_ignores_ledger_fields :
    sampleConfirmedTx.txStatus = "confirmed" ∧
    sampleConfirmedTxAlt.txStatus = "confirmed" ∧
    sampleConfirmedTx.txSuccess = sampleConfirmedTxAlt.txSuccess ∧
    sampleConfirmedTx.confirmedBlockNumber ≠ sampleConfirmedTxAlt.confirmedBlockNumber ∧
    sampleConfirmedTx.txReceipt ≠ sampleConfirmedTxAlt.txReceipt ∧
    (MonitorTransactionStatus [("p1", samplePending)] [sampleConfirmedTx] "p1").2 =
      (MonitorTransactionStatus [("p1", samplePending)] [sampleConfirmedTxAlt] "p1").2 := by
  decide

/-- C5 amended: reconciliation applies only the status transition (and
the error message on failure) to the piece record; every other field —
and in particular anything that could hold the ledger's success flag,
confirmed block, or receipt — is left exactly as it was. -/
theorem MonitorTransactionStatus_only_status (pieces : PieceMap)
    (db : List MessageWaitsEth) (pieceID id' : String) (p p' : PieceInfo)
    (hp : lookupPiece pieces id' = some p)
    (hp' : lookupPiece (MonitorTransactionStatus pieces db pieceID).2 id' = some p') :
    p'.id = p.id ∧ p'.filePath = p.filePath ∧ p'.size = p.size ∧
    p'.commP = p.commP ∧ p'.pieceCID = p.pieceCID ∧ p'.dataCID = p.dataCID ∧
    p'.proofSetID = p.proofSetID ∧ p'.uploadURL = p.uploadURL ∧
    p'.transactionHash = p.transactionHash ∧
    p'.transactionTimestamp = p.transactionTimestamp := by
  rcases MonitorTransactionStatus_cases pieces db pieceID
    with h2 | ⟨piece, mw, hlk, _, _, _, hcase⟩
  · rw [h2, hp] at hp'
    have hpp : p = p' := Option.some.inj hp'
    rw [← hpp]
    exact ⟨rfl, rfl, rfl, rfl, rfl, rfl, rfl, rfl, rfl, rfl⟩
  · have hmap : ∀ r : PieceInfo,
        MonitorTransactionStatus pieces db pieceID = (.ok (), insertPiece pieces pieceID r) →
        (r.id = piece.id ∧ r.filePath = piece.filePath ∧ r.size = piece.size ∧
         r.commP = piece.commP ∧ r.pieceCID = piece.pieceCID ∧ r.dataCID = piece.dataCID ∧
         r.proofSetID = piece.proofSetID ∧ r.uploadURL = piece.uploadURL ∧
         r.transactionHash = piece.transactionHash ∧
         r.transactionTimestamp = piece.transactionTimestamp) →
        (p'.id = p.id ∧ p'.filePath = p.filePath ∧ p'.size = p.size ∧
         p'.commP = p.commP ∧ p'.pieceCID = p.pieceCID ∧ p'.dataCID = p.dataCID ∧
         p'.proofSetID = p.proofSetID ∧ p'.uploadURL = p.uploadURL ∧
         p'.transactionHash = p.transactionHash ∧
         p'.transactionTimestamp = p.transactionTimestamp) := by
      intro r heq hfields
      by_cases hid : id' = pieceID
      · subst hid
        rw [heq] at hp'
        simp only [lookupPiece_insertPiece_self] at hp'
        have hr : r = p' := Option.some.inj hp'
        have hpc : p = piece := by
          rw [hp] at hlk
          exact Option.some.inj hlk
        rw [← hr, hpc]
        exact hfields
      · rw [heq] at hp'
        simp only [] at hp'
        rw [lookupPiece_insertPiece_ne _ _ _ _ hid, hp] at hp'
        have hpp : p = p' := Option.some.inj hp'
        rw [← hpp]
        exact ⟨rfl, rfl, rfl, rfl, rfl, rfl, rfl, rfl, rfl, rfl⟩
    rcases hcase with ⟨_, heq⟩ | ⟨_, heq⟩
    · exact hmap (confirmedRecord piece) heq
        ⟨rfl, rfl, rfl, rfl, rfl, rfl, rfl, rfl, rfl, rfl⟩
    · exact hmap (failedRecord piece) heq
        ⟨rfl, rfl, rfl, rfl, rfl, rfl, rfl, rfl, rfl, rfl⟩

/-- Witness for the amended C5 on the sample pending piece. -/
theorem MonitorTransactionStatus_only_status_witness :
    (lookupPiece [("p1", samplePending)] "p1" = some samplePending ∧
     lookupPiece
       (MonitorTransactionStatus [("p1", samplePending)] [sampleConfirmedTx] "p1").2
       "p1" = some (confirmedRecord samplePending)) ∧
    ((confirmedRecord samplePending).id = samplePending.id ∧
     (confirmedRecord samplePending).filePath = samplePending.filePath ∧
     (confirmedRecord samplePending).size = samplePending.size ∧
     (confirmedRecord samplePending).commP = samplePending.commP ∧
     (confirmedRecord samplePending).pieceCID = samplePending.pieceCID ∧
     (confirmedRecord samplePending).dataCID = samplePending.dataCID ∧
     (confirmedRecord samplePending).proofSetID = samplePending.proofSetID ∧
     (confirmedRecord samplePending).uploadURL = samplePending.uploadURL ∧
     (confirmedRecord samplePending).transactionHash = samplePending.transactionHash ∧
     (confirmedRecord samplePending).transactionTimestamp =
       samplePending.transactionTimestamp) :=
  ⟨⟨rfl, by decide⟩,
   MonitorTransactionStatus_only_status [("p1", samplePending)] [sampleConfirmedTx]
     "p1" "p1" samplePending (confirmedRecord samplePending) rfl (by decide)⟩

/-- C8: a piece in a terminal state (`added_to_proofset` or
`transaction_failed`) is never changed by a later reconciliation: the
manual monitor rejects it without touching the table, and the background
tick leaves the piece table untouched altogether. -/
theorem terminal_status_stable (pieces : PieceMap)
    (db piriTxs : List MessageWaitsEth) (pieceID : String) (piece : PieceInfo)
    (st : WatcherState) (hp : lookupPiece pieces pieceID = some piece)
    (ht : piece.status = "added_to_proofset" ∨ piece.status = "transaction_failed")
    (hst : st.pieces = pieces) :
    (MonitorTransactionStatus pieces db pieceID).2 = pieces ∧
    (processPendingTransactions st piriTxs).pieces = pieces := by
  constructor
  · have hne : piece.status ≠ "pending_confirmation" := by
      rcases ht with h | h <;> rw [h] <;> decide
    simp [MonitorTransactionStatus, hp, hne]
  · rw [processPendingTransactions_pieces, hst]

/-- Witness for C8 on a terminal sample piece. -/
theorem terminal_status_stable_witness :
    (lookupPiece [("p2", sampleTerminal)] "p2" = some sampleTerminal ∧
     (sampleTerminal.status = "added_to_proofset" ∨
      sampleTerminal.status = "transaction_failed") ∧
     (WatcherState.mk [("p2", sampleTerminal)] [samplePendingTx]).pieces =
       [("p2", sampleTerminal)]) ∧
    ((MonitorTransactionStatus [("p2", sampleTerminal)] [sampleConfirmedTx] "p2").2 =
       [("p2", sampleTerminal)] ∧
     (processPendingTransactions
        (WatcherState.mk [("p2", sampleTerminal)] [samplePendingTx])
        [sampleConfirmedTx]).pieces = [("p2", sampleTerminal)]) :=
  ⟨⟨rfl, Or.inl (by decide), rfl⟩,
   terminal_status_stable [("p2", sampleTerminal)] [sampleConfirmedTx]
     [sampleConfirmedTx] "p2" sampleTerminal
     (WatcherState.mk [("p2", sampleTerminal)] [samplePendingTx])
     rfl (Or.inl (by decide)) rfl⟩

/-- An id already present in the table makes `UploadPiece` fail with the
conflict error, leaving the table unchanged. -/
theorem UploadPiece_conflict (pieces : PieceMap) (pieceID : String)
    (content : List Nat) (o : UploadOracles)
    (h : (lookupPiece pieces pieceID).isSome = true) :
    UploadPiece pieces pieceID content o =
      (.error ("piece " ++ pieceID ++ " already exists"), pieces) := by
  simp [UploadPiece, h]

/-- C2 counterexample: with an empty piece table the id `"p1"` is
unknown to the store, yet `UploadPiece` succeeds instead of failing with
`NotFound` — and the id was never assigned by `PreparePiece`. -/
theorem UploadPiece_unknown_id_succeeds :
    lookupPiece ([] : PieceMap) "p1" = none ∧
    exceptIsOk (UploadPiece [] "p1" [1] ⟨.ok "aa", .ok "cid1", .ok ()⟩).1 = true :=
  ⟨rfl, rfl⟩

/-- C2 amended: `UploadPiece` fails with the conflict error whenever a
record with the id already exists (whether merely prepared or uploaded)
and leaves the table unchanged; a successful upload implies the id was
previously absent — not previously assigned by `PreparePiece` — and any
repeated upload of the same id then fails with the conflict error, so
upload succeeds at most once per id. -/
theorem UploadPiece_atMostOnce (pieces : PieceMap) (pieceID : String)
    (content content' : List Nat) (o o' : UploadOracles)
    (h : exceptIsOk (UploadPiece pieces pieceID content o).1 = true) :
    lookupPiece pieces pieceID = none ∧
    UploadPiece (UploadPiece pieces pieceID content o).2 pieceID content' o' =
      (.error ("piece " ++ pieceID ++ " already exists"),
       (UploadPiece pieces pieceID content o).2) := by
  rcases UploadPiece_cases pieces pieceID content o with ⟨h1, _⟩ | ⟨hnone, d, cid, heq⟩
  · rw [h1] at h
    exact absurd h (by decide)
  · refine ⟨hnone, ?_⟩
    rw [heq]
    refine UploadPiece_conflict _ _ _ _ ?_
    show (lookupPiece
      (insertPiece pieces pieceID (uploadedRecord pieceID content d cid))
      pieceID).isSome = true
    rw [lookupPiece_insertPiece_self]
    rfl

/-- Witness for the amended C2: a fresh upload succeeds and the repeat
upload of the same id is rejected with the table unchanged. -/
theorem UploadPiece_atMostOnce_witness :
    exceptIsOk (UploadPiece [] "p1" [1] ⟨.ok "aa", .ok "cid1", .ok ()⟩).1 = true ∧
    (lookupPiece ([] : PieceMap) "p1" = none ∧
     UploadPiece (UploadPiece [] "p1" [1] ⟨.ok "aa", .ok "cid1", .ok ()⟩).2 "p1" [2]
         ⟨.ok "bb", .ok "cid2", .ok ()⟩ =
       (.error ("piece " ++ "p1" ++ " already exists"),
        (UploadPiece [] "p1" [1] ⟨.ok "aa", .ok "cid1", .ok ()⟩).2)) :=
  ⟨rfl, UploadPiece_atMostOnce [] "p1" [1] [2]
    ⟨.ok "aa", .ok "cid1", .ok ()⟩ ⟨.ok "bb", .ok "cid2", .ok ()⟩ rfl⟩

/-- C3 counterexample: a reachable sequence — upload under an id, submit
it to a proof set, then prepare a file whose hash-derived id collides
with that id — moves the piece's status backward from
`pending_confirmation` to `prepared`, which is not a forward lifecycle
edge. -/
theorem preparePiece_resets_status :
    ((lookupPiece
        ((AddPieceToProofSet
          ((UploadPiece [] "0011223344556677" [1] ⟨.ok "aa", .ok "cid1", .ok ()⟩).2)
          "0011223344556677" 7 ⟨.ok (), .ok (), .ok (), .ok (some "0xabc"), 5⟩).2)
        "0011223344556677").map PieceInfo.status = some "pending_confirmation") ∧
    ((lookupPiece
        (applyOp
          ((AddPieceToProofSet
            ((UploadPiece [] "0011223344556677" [1] ⟨.ok "aa", .ok "cid1", .ok ()⟩).2)
            "0011223344556677" 7 ⟨.ok (), .ok (), .ok (), .ok (some "0xabc"), 5⟩).2)
          (.prepare "file.bin" ⟨.ok 1, "0011223344556677"⟩))
        "0011223344556677").map PieceInfo.status = some "prepared") ∧
    statusEdgeB "pending_confirmation" "prepared" = false :=
  ⟨rfl, rfl, by decide⟩

/-- C3 amended: under every operation other than `PreparePiece` — that
is, `UploadPiece`, `AddPieceToProofSet` and the reconciler's
`MonitorTransactionStatus` — an existing piece's status only moves
forward along the lifecycle edges (`prepared → uploaded`,
`uploaded → pending_confirmation | error`,
`pending_confirmation → added_to_proofset | transaction_failed`) or stays
put; `PreparePiece`, however, overwrites a colliding id and resets its
status to `prepared`. -/
theorem pieceStatus_forward (pieces : PieceMap) (op : PieceOp) (id : String)
    (p p' : PieceInfo) (hop : op.isPrepare = false)
    (hp : lookupPiece pieces id = some p)
    (hp' : lookupPiece (applyOp pieces op) id = some p') :
    statusEdgeB p.status p'.status = true := by
  have hrefl : ∀ s : String, statusEdgeB s s = true := by
    intro s
    simp [statusEdgeB]
  rcases applyOp_shape pieces op hop with heq | ⟨k, v, heq, hcase⟩
  · rw [heq, hp] at hp'
    rw [← Option.some.inj hp']
    exact hrefl _
  · by_cases hk : id = k
    · subst hk
      rw [heq, lookupPiece_insertPiece_self] at hp'
      rw [← Option.some.inj hp']
      rcases hcase with hnone | ⟨pold, hpo, hedge⟩
      · rw [hp] at hnone
        cases hnone
      · rw [hp] at hpo
        rw [Option.some.inj hpo]
        exact hedge
    · rw [heq, lookupPiece_insertPiece_ne _ _ _ _ hk, hp] at hp'
      rw [← Option.some.inj hp']
      exact hrefl _

/-- Witness for the amended C3: reconciling the sample pending piece
moves it along the edge `pending_confirmation → added_to_proofset`. -/
theorem pieceStatus_forward_witness :
    ((PieceOp.monitor "p1" [sampleConfirmedTx]).isPrepare = false ∧
     lookupPiece [("p1", samplePending)] "p1" = some samplePending ∧
     lookupPiece (applyOp [("p1", samplePending)]
         (PieceOp.monitor "p1" [sampleConfirmedTx])) "p1" =
       some (confirmedRecord samplePending)) ∧
    statusEdgeB samplePending.status (confirmedRecord samplePending).status = true :=
  ⟨⟨rfl, rfl, by decide⟩,
   pieceStatus_forward [("p1", samplePending)]
     (PieceOp.monitor "p1" [sampleConfirmedTx]) "p1" samplePending
     (confirmedRecord samplePending) rfl rfl (by decide)⟩

/-- C1: at a state holding one piece pending confirmation whose
transaction the authoritative ledger reports confirmed and successful,
one background tick leaves the piece's status untouched (its
`updatePieceStatusForConfirmedTx` stub performs no piece update), while
the manual monitor advances the same piece to `added_to_proofset` — the
two reconciliation paths do not apply the same piece-status transition. -/
theorem tick_stub_vs_monitor :
    samplePending.status = "pending_confirmation" ∧
    sampleConfirmedTx.txStatus = "confirmed" ∧
    sampleConfirmedTx.txSuccess = some true ∧
    sampleConfirmedTx.signedTxHash = samplePending.transactionHash ∧
    samplePendingTx.txStatus = "pending" ∧
    samplePendingTx.signedTxHash = samplePending.transactionHash ∧
    (processPendingTransactions
        (WatcherState.mk [("p1", samplePending)] [samplePendingTx])
        [sampleConfirmedTx]).pieces = [("p1", samplePending)] ∧
    (MonitorTransactionStatus [("p1", samplePending)] [sampleConfirmedTx] "p1").2 =
      [("p1", confirmedRecord samplePending)] ∧
    (confirmedRecord samplePending).status = "added_to_proofset" ∧
    samplePending.status ≠ (confirmedRecord samplePending).status := by
  decide

end PdpServer
